import Mathlib

/-!
# yaragui: scan / compile orchestration of `MainController`

A shallow embedding of `src/main_controller.cpp` together with the parts of
`src/main_window.cpp` the controller drives (`scanBegin`, `scanEnd`,
`setCompilerBusy`, `setRules`, `handleScanAbortButton`).

* Every handler of `MainController` is a function from the controller state to the
  new controller state and the list of calls it made on its collaborators (the Rule
  Engine `m_rm`, the Statistics Engine `m_sc`, the main window `m_mainWindow`), in
  program order.
* The collaborators whose code is not part of the controller are represented by the
  calls made on them (`Effect`) and by the values they hand back (event arguments,
  the `getRules()` snapshot).
* All handlers run on the single owner thread, one after the other, so an execution
  is a list of `Event`s folded through `step`.
-/

namespace YaraGui

/-! ## Data records -/

/-- Modelled from the spec: `ruleset_view.h` is not under `src/`. A rule-definition
source with its file path, optional display name and compiled flag (spec section 3).
`ref` stands for the identity of the shared object behind `RulesetView::Ref`. -/
structure RulesetView where
  ref : Nat
  file : String
  name : Option String
  compiled : Bool
deriving DecidableEq, Repr

/-- Modelled from the spec: `scanner_rule.h` is not under `src/`. One named rule of a
compiled ruleset; `main_window.cpp` reads `rule->identifier`. -/
structure ScannerRule where
  identifier : String
deriving DecidableEq, Repr

/-- Modelled from the spec: `file_stats.h` is not under `src/`. Statistics computed
for one target, keyed by `filename()`. -/
structure FileStats where
  filename : String
  payload : String
deriving DecidableEq, Repr

/-- A compile session (`CompileWindow`), as far as the controller uses it:
`rule()` / `setRule`, `isVisible()`, `setEnabled`. `setRuleCalls` is instrumentation:
it counts the `setRule` calls received by this window. -/
structure CompileWindow where
  rule : RulesetView
  visible : Bool
  enabled : Bool
  setRuleCalls : Nat
deriving DecidableEq, Repr

/-- Modelled from the spec: the constructor of `CompileWindow` is not under `src/`.
A session is created bound to `view` and exists while presentation-visible
(spec sections 3 and 4.2). -/
def CompileWindow.new (view : RulesetView) : CompileWindow :=
  { rule := view, visible := true, enabled := true, setRuleCalls := 0 }

/-- The call `window->setRule(rule)`. -/
def CompileWindow.setRule (rule : RulesetView) (w : CompileWindow) : CompileWindow :=
  { w with rule := rule, setRuleCalls := w.setRuleCalls + 1 }

/-- The call `window->setEnabled(state)`. -/
def CompileWindow.setEnabled (state : Bool) (w : CompileWindow) : CompileWindow :=
  { w with enabled := state }

/-- The rule management window (`RuleWindow`), as far as the controller uses it. -/
structure RuleWindow where
  visible : Bool
  enabled : Bool
  m_rules : List RulesetView
deriving DecidableEq, Repr

/-- The call `m_ruleWindow->setRules(rules)`. -/
def RuleWindow.setRules (rules : List RulesetView) (w : RuleWindow) : RuleWindow :=
  { w with m_rules := rules }

/-- The call `m_ruleWindow->setEnabled(state)`. -/
def RuleWindow.setEnabled (state : Bool) (w : RuleWindow) : RuleWindow :=
  { w with enabled := state }

/-- The part of `MainWindow` written by the functions the controller calls.
`inputsEnabled` is the common enabled state of `targetPath`, `targetButton`,
`rulePath` and `ruleButton`, which are always set together. -/
structure MainWindow where
  m_rules : List RulesetView
  m_scanAborted : Bool
  inputsEnabled : Bool
  stopButtonVisible : Bool
  stopButtonEnabled : Bool
  scanTimerActive : Bool
  status : String
deriving DecidableEq, Repr

/-- `MainWindow::scanBegin` (the result tree and the panels it clears are not
modelled). -/
def MainWindow.scanBegin (w : MainWindow) : MainWindow :=
  { w with
    inputsEnabled := false
    m_scanAborted := false
    stopButtonVisible := true
    stopButtonEnabled := true
    scanTimerActive := true }

/-- `MainWindow::scanEnd`. -/
def MainWindow.scanEnd (w : MainWindow) : MainWindow :=
  { w with
    inputsEnabled := true
    scanTimerActive := false
    stopButtonVisible := false
    status := if !w.m_scanAborted then "Operation complete" else "Scan aborted" }

/-- `MainWindow::setCompilerBusy`. -/
def MainWindow.setCompilerBusy (state : Bool) (w : MainWindow) : MainWindow :=
  { w with inputsEnabled := !state }

/-- `MainWindow::setRules` (the menu it rebuilds is not modelled). -/
def MainWindow.setRules (rules : List RulesetView) (w : MainWindow) : MainWindow :=
  { w with m_rules := rules }

/-- `MainWindow::handleScanAbortButton`, up to the `onScanAbort()` emission. -/
def MainWindow.handleScanAbortButton (w : MainWindow) : MainWindow :=
  { w with
    scanTimerActive := false
    stopButtonEnabled := false
    m_scanAborted := true }

/-- Calls made on the collaborators, in program order. -/
inductive Effect where
  /-- The call `m_rm->scan(m_targets, m_ruleset)`. -/
  | rmScan (targets : List String) (ruleset : Option RulesetView)
  /-- The call `m_rm->scanAbort()`. -/
  | rmScanAbort
  /-- The call `m_rm->compile(view)`. -/
  | rmCompile (view : RulesetView)
  /-- The call `m_rm->updateRules(rules)`. -/
  | rmUpdateRules (rules : List RulesetView)
  /-- The call `m_sc->getStats(target)`. -/
  | scGetStats (target : String)
  /-- The call `m_sc->reset()`. -/
  | scReset
  /-- The call `m_sc->abort()`. -/
  | scAbort
  /-- The call `m_mainWindow->scanBegin()`. -/
  | scanBegin
  /-- The call `m_mainWindow->scanEnd()`, with the value of `m_scanAborted` it reads. -/
  | scanEnd (aborted : Bool)
  /-- The call `m_mainWindow->addScanResult(target, rule, view)`. -/
  | addScanResult (target : String) (rule : Option ScannerRule) (view : Option RulesetView)
  /-- The call `m_mainWindow->updateFileStats(stats)`. -/
  | updateFileStats (stats : FileStats)
  /-- The call `m_mainWindow->setRules(rules)`. -/
  | setRules (rules : List RulesetView)
  /-- The call `m_mainWindow->setCompilerBusy(state)`. -/
  | setCompilerBusy (state : Bool)
  /-- The call `m_ruleWindow->raise()`. -/
  | ruleWindowRaise
deriving DecidableEq, Repr

/-! ## The controller -/

/-- The state of `MainController`. The counter `m_statsRemaining` is declared in
`main_controller.h`, which is not under `src/`; the spec gives it as an `int`
(`outstandingStats`), and it is taken here as an integer that can go below zero.
`m_rm_rules` is the snapshot `m_rm->getRules()` would return. -/
structure MainController where
  m_haveRuleset : Bool
  m_scanning : Bool
  m_statsRemaining : Int
  m_targets : List String
  m_ruleset : Option RulesetView
  m_compileWindows : List CompileWindow
  m_ruleWindow : Option RuleWindow
  m_mainWindow : MainWindow
  m_rm_rules : List RulesetView
deriving DecidableEq, Repr

/-- The state left by the constructor: `m_haveRuleset(false)`, `m_scanning(false)`,
`m_statsRemaining(0)`, no targets, no windows, and the main window showing the
engine's rules. `m_scanAborted` is not initialised by the constructor of
`MainWindow`, so its first value `aborted0` is a parameter. -/
def MainController.init (rules : List RulesetView) (aborted0 : Bool) : MainController :=
  { m_haveRuleset := false
    m_scanning := false
    m_statsRemaining := 0
    m_targets := []
    m_ruleset := none
    m_compileWindows := []
    m_ruleWindow := none
    m_mainWindow :=
      { m_rules := rules
        m_scanAborted := aborted0
        inputsEnabled := true
        stopButtonVisible := false
        stopButtonEnabled := true
        scanTimerActive := false
        status := "Drag file into window and select rule to scan" }
    m_rm_rules := rules }

/-- `MainController::setCompileWindowsEnabled`. -/
def setCompileWindowsEnabled (state : Bool) (c : MainController) : MainController :=
  { c with m_compileWindows := c.m_compileWindows.map (CompileWindow.setEnabled state) }

/-- `MainController::updateCompileWindows`: erase the windows that are not visible,
then call `setRule(rule)` on every remaining window bound to the same file. -/
def updateCompileWindows (rule : RulesetView) (c : MainController) : MainController :=
  let live := c.m_compileWindows.filter (fun w => w.visible)
  { c with
    m_compileWindows :=
      live.map (fun w => if rule.file = w.rule.file then w.setRule rule else w) }

/-- `MainController::handleOperationsComplete`. -/
def handleOperationsComplete (c : MainController) : MainController × List Effect :=
  if c.m_scanning = true ∨ c.m_statsRemaining ≠ 0 then
    (c, [])
  else
    let c1 : MainController :=
      match c.m_ruleWindow with
      | some rw =>
        if rw.visible then { c with m_ruleWindow := some (rw.setRules c.m_rm_rules) } else c
      | none => c
    let aborted := c1.m_mainWindow.m_scanAborted
    let c2 : MainController := { c1 with m_mainWindow := c1.m_mainWindow.scanEnd }
    let c3 : MainController :=
      { c2 with m_ruleWindow := c2.m_ruleWindow.map (RuleWindow.setEnabled true) }
    (setCompileWindowsEnabled true c3, [Effect.scanEnd aborted])

/-- `MainController::scan`. -/
def scan (c : MainController) : MainController × List Effect :=
  if c.m_targets ≠ [] ∧ c.m_haveRuleset = true ∧ c.m_scanning = false then
    let c1 : MainController :=
      { c with m_scanning := true, m_mainWindow := c.m_mainWindow.scanBegin }
    let c2 : MainController :=
      { c1 with m_ruleWindow := c1.m_ruleWindow.map (RuleWindow.setEnabled false) }
    (setCompileWindowsEnabled false c2,
      [Effect.scanBegin, Effect.scReset, Effect.rmScan c.m_targets c.m_ruleset])
  else
    (c, [])

/-- `MainController::handleChangeTargets`. -/
def handleChangeTargets (files : List String) (c : MainController) :
    MainController × List Effect :=
  ({ c with m_targets := files }, [])

/-- `MainController::handleChangeRuleset`; `none` is the null reference that means
"scan with every rule". -/
def handleChangeRuleset (ruleset : Option RulesetView) (c : MainController) :
    MainController × List Effect :=
  scan { c with m_ruleset := ruleset, m_haveRuleset := true }

/-- `MainController::handleScanResult`; `rule = none` is the null rule that marks the
end of the scan of `target`. -/
def handleScanResult (target : String) (rule : Option ScannerRule)
    (view : Option RulesetView) (c : MainController) : MainController × List Effect :=
  match rule with
  | none =>
    ({ c with m_statsRemaining := c.m_statsRemaining + 1 },
      [Effect.scGetStats target, Effect.addScanResult target none view])
  | some r => (c, [Effect.addScanResult target (some r) view])

/-- `MainController::handleScanComplete`. -/
def handleScanComplete (_error : String) (c : MainController) :
    MainController × List Effect :=
  handleOperationsComplete { c with m_scanning := false }

/-- `MainController::handleRulesUpdated`. -/
def handleRulesUpdated (c : MainController) : MainController × List Effect :=
  let rules := c.m_rm_rules
  let c1 : MainController := { c with m_mainWindow := c.m_mainWindow.setRules rules }
  let c2 : MainController := rules.foldl (fun acc rule => updateCompileWindows rule acc) c1
  if c2.m_scanning = false then
    let c3 := setCompileWindowsEnabled true c2
    ({ c3 with m_mainWindow := c3.m_mainWindow.setCompilerBusy false },
      [Effect.setRules rules, Effect.setCompilerBusy false])
  else
    (c2, [Effect.setRules rules])

/-- `MainController::handleFileStats`. -/
def handleFileStats (stats : FileStats) (c : MainController) :
    MainController × List Effect :=
  let c1 : MainController := { c with m_statsRemaining := c.m_statsRemaining - 1 }
  let r := handleOperationsComplete c1
  (r.1, Effect.updateFileStats stats :: r.2)

/-- `MainController::handleRequestRuleWindowOpen`. The constructor of `RuleWindow` is
not under `src/`; `fresh` is the window it returns. -/
def handleRequestRuleWindowOpen (fresh : RuleWindow) (c : MainController) :
    MainController × List Effect :=
  match c.m_ruleWindow with
  | some rw =>
    if rw.visible then (c, [Effect.ruleWindowRaise])
    else ({ c with m_ruleWindow := some (fresh.setRules c.m_rm_rules) }, [])
  | none => ({ c with m_ruleWindow := some (fresh.setRules c.m_rm_rules) }, [])

/-- `MainController::handleRuleWindowSave`. -/
def handleRuleWindowSave (rules : List RulesetView) (c : MainController) :
    MainController × List Effect :=
  (c, [Effect.rmUpdateRules rules])

/-- `MainController::handleCompileWindowRecompile`. -/
def handleCompileWindowRecompile (view : RulesetView) (c : MainController) :
    MainController × List Effect :=
  let c1 : MainController := { c with m_mainWindow := c.m_mainWindow.setCompilerBusy true }
  (setCompileWindowsEnabled false c1, [Effect.setCompilerBusy true, Effect.rmCompile view])

/-- `MainController::handleRuleWindowCompile`. -/
def handleRuleWindowCompile (view : RulesetView) (c : MainController) :
    MainController × List Effect :=
  handleCompileWindowRecompile view
    { c with m_compileWindows := c.m_compileWindows ++ [CompileWindow.new view] }

/-- `MainController::handleUserScanAbort`. -/
def handleUserScanAbort (c : MainController) : MainController × List Effect :=
  (c, [Effect.rmScanAbort, Effect.scAbort])

/-- `MainWindow::handleScanAbortButton` followed by the slot connected to
`onScanAbort`, `MainController::handleUserScanAbort`. -/
def handleScanAbortButton (c : MainController) : MainController × List Effect :=
  handleUserScanAbort { c with m_mainWindow := c.m_mainWindow.handleScanAbortButton }

/-! ## Events and executions -/

/-- What can happen to the controller: the signals it is connected to, and the
environment's own moves (the engine changing its rule list, the user closing a
window). -/
inductive Event where
  /-- The signal `onChangeTargets(files)`. -/
  | changeTargets (files : List String)
  /-- The signal `onChangeRuleset(ruleset)`. -/
  | changeRuleset (ruleset : Option RulesetView)
  /-- The signal `onScanResult(target, rule, view)`. -/
  | scanResult (target : String) (rule : Option ScannerRule) (view : Option RulesetView)
  /-- The signal `onScanComplete(error)`. -/
  | scanComplete (error : String)
  /-- The signal `onRulesUpdated()`, the engine holding `allViews` from now on. -/
  | rulesUpdated (allViews : List RulesetView)
  /-- The signal `onFileStats(stats)`. -/
  | fileStats (stats : FileStats)
  /-- The signal `onRequestRuleWindowOpen()`. -/
  | requestRuleWindowOpen (fresh : RuleWindow)
  /-- The signal `onSaveRules(rules)` of the rule window. -/
  | ruleWindowSave (rules : List RulesetView)
  /-- The signal `onCompileRule(view)` of the rule window. -/
  | ruleWindowCompile (view : RulesetView)
  /-- The signal `onRecompileRule(view)` of a compile window. -/
  | compileWindowRecompile (view : RulesetView)
  /-- A click on the stop button: `handleScanAbortButton`, then `onScanAbort()`. -/
  | scanAbort
  /-- The user closes the compile window at position `i` of `m_compileWindows`. -/
  | compileWindowClosed (i : Nat)
  /-- The user closes the rule window. -/
  | ruleWindowClosed
deriving DecidableEq, Repr

/-- Closing the compile window at position `i`: it is no longer visible. -/
def closeCompileWindow (i : Nat) (c : MainController) : MainController :=
  { c with m_compileWindows := c.m_compileWindows.modify (fun w => { w with visible := false }) i }

/-- Closing the rule window: it is no longer visible. -/
def closeRuleWindow (c : MainController) : MainController :=
  { c with m_ruleWindow := c.m_ruleWindow.map (fun w => { w with visible := false }) }

/-- One event handled on the owner thread. -/
def step (c : MainController) : Event → MainController × List Effect
  | .changeTargets files => handleChangeTargets files c
  | .changeRuleset ruleset => handleChangeRuleset ruleset c
  | .scanResult target rule view => handleScanResult target rule view c
  | .scanComplete error => handleScanComplete error c
  | .rulesUpdated allViews => handleRulesUpdated { c with m_rm_rules := allViews }
  | .fileStats stats => handleFileStats stats c
  | .requestRuleWindowOpen fresh => handleRequestRuleWindowOpen fresh c
  | .ruleWindowSave rules => handleRuleWindowSave rules c
  | .ruleWindowCompile view => handleRuleWindowCompile view c
  | .compileWindowRecompile view => handleCompileWindowRecompile view c
  | .scanAbort => handleScanAbortButton c
  | .compileWindowClosed i => (closeCompileWindow i c, [])
  | .ruleWindowClosed => (closeRuleWindow c, [])

/-- The events of `evs` handled one after the other: the final state and all the
calls made, in order. -/
def run (c : MainController) : List Event → MainController × List Effect
  | [] => (c, [])
  | e :: evs =>
    let r1 := step c e
    let r2 := run r1.1 evs
    (r2.1, r1.2 ++ r2.2)

/-- The execution step by step: for each event of `evs`, the state after it and the
calls made while handling it. -/
def trace (c : MainController) : List Event → List (MainController × List Effect)
  | [] => []
  | e :: evs => step c e :: trace (step c e).1 evs

/-! ## Observations on call logs and event lists -/

/-- Whether a call is the completion signal `scanEnd`. -/
def Effect.isScanEnd : Effect → Bool
  | .scanEnd _ => true
  | _ => false

/-- Whether a call is `scanBegin`. -/
def Effect.isScanBegin : Effect → Bool
  | .scanBegin => true
  | _ => false

/-- Whether a call is a cancellation request to one of the two engines. -/
def Effect.isCancel : Effect → Bool
  | .rmScanAbort => true
  | .scAbort => true
  | _ => false

/-- The targets of the `getStats` calls of a log, in order. -/
def getStatsCalls : List Effect → List String
  | [] => []
  | .scGetStats target :: log => target :: getStatsCalls log
  | _ :: log => getStatsCalls log

/-- Whether an event is a scan result without a rule: the end of one target. -/
def Event.isSentinel : Event → Bool
  | .scanResult _ none _ => true
  | _ => false

/-- Whether an event is a scan result (a match or a sentinel). -/
def Event.isScanResult : Event → Bool
  | .scanResult _ _ _ => true
  | _ => false

/-- Whether an event is a statistics-ready event. -/
def Event.isFileStats : Event → Bool
  | .fileStats _ => true
  | _ => false

/-- Whether an event is the scan-complete signal of the Rule Engine. -/
def Event.isScanComplete : Event → Bool
  | .scanComplete _ => true
  | _ => false

/-- Whether an event is a click on the stop button. -/
def Event.isAbort : Event → Bool
  | .scanAbort => true
  | _ => false

/-- The targets of the sentinel events of an event list, in order. -/
def sentinelTargets : List Event → List String
  | [] => []
  | .scanResult target none _ :: evs => target :: sentinelTargets evs
  | _ :: evs => sentinelTargets evs

/-- Number of sentinel events. -/
def sentinelCount (evs : List Event) : Nat := evs.countP Event.isSentinel

/-- Number of statistics-ready events. -/
def statsCount (evs : List Event) : Nat := evs.countP Event.isFileStats

/-- The orchestrator is idle: no scan running and no statistics outstanding. -/
def Idle (c : MainController) : Prop := c.m_scanning = false ∧ c.m_statsRemaining = 0

instance (c : MainController) : Decidable (Idle c) := by
  unfold Idle; infer_instance

/-- What one call of `updateCompileWindows` does to the list of compile windows. -/
def refreshWindows (rule : RulesetView) (ws : List CompileWindow) : List CompileWindow :=
  (ws.filter (fun w => w.visible)).map
    (fun w => if rule.file = w.rule.file then w.setRule rule else w)

/-- What the calls of `updateCompileWindows` for the rules `rules`, in order, do to one
window that stays in the list. -/
def rebind (rules : List RulesetView) (w : CompileWindow) : CompileWindow :=
  rules.foldl (fun w rule => if rule.file = w.rule.file then w.setRule rule else w) w

/-- Whether an event is the rules-updated signal of the Rule Engine. -/
def Event.isRulesUpdated : Event → Bool
  | .rulesUpdated _ => true
  | _ => false

/-- Every registered compile session is disabled. -/
def AllSessionsDisabled (c : MainController) : Prop :=
  ∀ w ∈ c.m_compileWindows, w.enabled = false

instance (c : MainController) : Decidable (AllSessionsDisabled c) := by
  unfold AllSessionsDisabled; infer_instance

/-! ## Sample inputs -/

/-- A rule file, not yet compiled. -/
def viewR1 : RulesetView :=
  { ref := 1, file := "/rules/r1.yar", name := none, compiled := false }

/-- The same rule file after compilation: another object with the same file path. -/
def viewR1Compiled : RulesetView :=
  { ref := 2, file := "/rules/r1.yar", name := none, compiled := true }

/-- Another rule file. -/
def viewR2 : RulesetView :=
  { ref := 3, file := "/rules/r2.yar", name := some "second", compiled := true }

/-- The controller after start-up and the selection of two targets. -/
def readyState : MainController :=
  (run (MainController.init [viewR1] false)
    [Event.changeTargets ["/a.bin", "/b.bin"]]).1

/-- Scan results of a scan of the two targets: one match and both sentinels, the
statistics of the first target arriving before scan-complete. -/
def sampleBeforeComplete : List Event :=
  [Event.scanResult "/a.bin" (some ⟨"EvilPattern"⟩) (some viewR1),
    Event.scanResult "/a.bin" none (some viewR1),
    Event.scanResult "/b.bin" none (some viewR1),
    Event.fileStats ⟨"/a.bin", "stats of a"⟩]

/-- The statistics of the second target, arriving after scan-complete. -/
def sampleAfterComplete : List Event :=
  [Event.fileStats ⟨"/b.bin", "stats of b"⟩]

/-- Sentinels of two targets, answered in the opposite order. -/
def sampleInterleaving : List Event :=
  [Event.scanResult "/a.bin" none none, Event.scanResult "/b.bin" none none,
    Event.fileStats ⟨"/b.bin", ""⟩, Event.fileStats ⟨"/a.bin", ""⟩]

/-- The controller while draining: the scan of `/a.bin` is complete and its statistics
are outstanding. -/
def drainingState : MainController :=
  (run (MainController.init [viewR1] false)
    [Event.changeTargets ["/a.bin"], Event.changeRuleset none,
      Event.scanResult "/a.bin" none none, Event.scanComplete ""]).1

/-- The controller while a compile is busy: a compile session was opened for `viewR1`
and the rules-updated acknowledgement has not arrived. -/
def compilingState : MainController :=
  (run (MainController.init [viewR1] false)
    [Event.changeTargets ["/a.bin"], Event.ruleWindowCompile viewR1]).1

/-- The controller with one compile session that the user has closed. -/
def closedSessionState : MainController :=
  (run (MainController.init [viewR1] false)
    [Event.ruleWindowCompile viewR1, Event.rulesUpdated [viewR1Compiled],
      Event.compileWindowClosed 0]).1

/-- The controller with one open compile session bound to `viewR1`. -/
def openSessionState : MainController :=
  (run (MainController.init [viewR1] false)
    [Event.ruleWindowCompile viewR1, Event.rulesUpdated [viewR1Compiled]]).1

/-- Start-up, one target, one compile session opened and acknowledged, then a ruleset
selection: a scan is running with one session registered. -/
def sampleScanWithSession : List Event :=
  [Event.changeTargets ["/a.bin"], Event.ruleWindowCompile viewR1,
    Event.rulesUpdated [viewR1Compiled], Event.changeRuleset none]

/-- The same scan up to scan-complete with the statistics of `/a.bin` outstanding,
followed by a rules-updated event. -/
def sampleUpdateWhileDraining : List Event :=
  sampleScanWithSession ++
    [Event.scanResult "/a.bin" none none, Event.scanComplete "",
      Event.rulesUpdated [viewR1Compiled]]

/-- A scan of `/a.bin` aborted while it runs, then, after scan-complete and with the
statistics of `/a.bin` outstanding, the selection of a rule file (as raised by a
`.yar` file dropped on the main window), the second scan-complete and the
statistics. -/
def sampleAbortThenRestart : List Event :=
  [Event.changeTargets ["/a.bin"], Event.changeRuleset none,
    Event.scanResult "/a.bin" none none, Event.scanAbort, Event.scanComplete "",
    Event.changeRuleset (some viewR1), Event.scanComplete "",
    Event.fileStats ⟨"/a.bin", ""⟩]

/-! ## Lemmas on the handlers and on executions -/

theorem hoc_scanning (c : MainController) :
    (handleOperationsComplete c).1.m_scanning = c.m_scanning := by
  unfold handleOperationsComplete
  split
  · rfl
  · cases h : c.m_ruleWindow with
    | none => simp [setCompileWindowsEnabled]
    | some rw => by_cases hv : rw.visible <;> simp [setCompileWindowsEnabled, hv]

theorem hoc_statsRemaining (c : MainController) :
    (handleOperationsComplete c).1.m_statsRemaining = c.m_statsRemaining := by
  unfold handleOperationsComplete
  split
  · rfl
  · cases h : c.m_ruleWindow with
    | none => simp [setCompileWindowsEnabled]
    | some rw => by_cases hv : rw.visible <;> simp [setCompileWindowsEnabled, hv]

theorem hoc_aborted (c : MainController) :
    (handleOperationsComplete c).1.m_mainWindow.m_scanAborted =
      c.m_mainWindow.m_scanAborted := by
  unfold handleOperationsComplete
  split
  · rfl
  · cases h : c.m_ruleWindow with
    | none => simp [setCompileWindowsEnabled, MainWindow.scanEnd]
    | some rw =>
      by_cases hv : rw.visible <;> simp [setCompileWindowsEnabled, MainWindow.scanEnd, hv]

theorem hoc_log (c : MainController) :
    (handleOperationsComplete c).2 =
      if c.m_scanning = false ∧ c.m_statsRemaining = 0 then
        [Effect.scanEnd c.m_mainWindow.m_scanAborted] else [] := by
  unfold handleOperationsComplete
  by_cases h1 : c.m_scanning = true <;> by_cases h2 : c.m_statsRemaining = 0 <;>
    simp [h1, h2]
  cases h : c.m_ruleWindow with
  | none => simp
  | some rw => by_cases hv : rw.visible <;> simp [hv]

theorem scan_statsRemaining (c : MainController) :
    (scan c).1.m_statsRemaining = c.m_statsRemaining := by
  unfold scan
  split <;> simp [setCompileWindowsEnabled]

theorem foldl_update_eq (rules : List RulesetView) (c : MainController) :
    rules.foldl (fun acc rule => updateCompileWindows rule acc) c =
      { c with
        m_compileWindows :=
          rules.foldl (fun ws rule => refreshWindows rule ws) c.m_compileWindows } := by
  induction rules generalizing c with
  | nil => rfl
  | cons r rs ih =>
    rw [List.foldl_cons, ih]
    rfl

theorem foldl_update_statsRemaining (rules : List RulesetView) (c : MainController) :
    (rules.foldl (fun acc rule => updateCompileWindows rule acc) c).m_statsRemaining =
      c.m_statsRemaining := by
  rw [foldl_update_eq]

theorem foldl_update_scanning (rules : List RulesetView) (c : MainController) :
    (rules.foldl (fun acc rule => updateCompileWindows rule acc) c).m_scanning =
      c.m_scanning := by
  rw [foldl_update_eq]

theorem foldl_update_mainWindow (rules : List RulesetView) (c : MainController) :
    (rules.foldl (fun acc rule => updateCompileWindows rule acc) c).m_mainWindow =
      c.m_mainWindow := by
  rw [foldl_update_eq]

theorem rulesUpdated_statsRemaining (c : MainController) :
    (handleRulesUpdated c).1.m_statsRemaining = c.m_statsRemaining := by
  unfold handleRulesUpdated
  simp only []
  split <;> simp [setCompileWindowsEnabled, foldl_update_statsRemaining]

theorem rulesUpdated_scanning (c : MainController) :
    (handleRulesUpdated c).1.m_scanning = c.m_scanning := by
  unfold handleRulesUpdated
  simp only []
  split <;> simp [setCompileWindowsEnabled, foldl_update_scanning]

theorem rulesUpdated_aborted (c : MainController) :
    (handleRulesUpdated c).1.m_mainWindow.m_scanAborted = c.m_mainWindow.m_scanAborted := by
  unfold handleRulesUpdated
  simp only []
  split <;>
    simp [setCompileWindowsEnabled, foldl_update_mainWindow, MainWindow.setCompilerBusy,
      MainWindow.setRules]

theorem rulesUpdated_log_scanEnd (c : MainController) (x : Effect)
    (hx : x ∈ (handleRulesUpdated c).2) : x.isScanEnd = false ∧ x.isScanBegin = false := by
  unfold handleRulesUpdated at hx
  simp only [] at hx
  split at hx <;> simp at hx <;> rcases hx with rfl | rfl <;> simp [Effect.isScanEnd, Effect.isScanBegin]

/-- The counter moves by one per sentinel and by one per statistics-ready event, and
by nothing else. -/
theorem step_statsRemaining (c : MainController) (e : Event) :
    (step c e).1.m_statsRemaining =
      c.m_statsRemaining + (if e.isSentinel then 1 else 0)
        - (if e.isFileStats then 1 else 0) := by
  cases e with
  | scanResult target rule view =>
    cases rule <;> simp [step, handleScanResult, Event.isSentinel, Event.isFileStats]
  | rulesUpdated allViews =>
    simp [step, rulesUpdated_statsRemaining, Event.isSentinel, Event.isFileStats]
  | requestRuleWindowOpen fresh =>
    simp only [step, handleRequestRuleWindowOpen, Event.isSentinel, Event.isFileStats]
    cases h : c.m_ruleWindow with
    | none => simp
    | some rw => by_cases hv : rw.visible <;> simp [hv]
  | _ =>
    simp [step, handleChangeTargets, handleChangeRuleset, handleScanComplete,
      handleFileStats, handleRuleWindowSave, handleRuleWindowCompile,
      handleCompileWindowRecompile, handleScanAbortButton, handleUserScanAbort,
      closeCompileWindow, closeRuleWindow, setCompileWindowsEnabled,
      hoc_statsRemaining, scan_statsRemaining, Event.isSentinel, Event.isFileStats]

theorem requestOpen_cases (fresh : RuleWindow) (c : MainController) :
    handleRequestRuleWindowOpen fresh c = (c, [Effect.ruleWindowRaise]) ∨
    handleRequestRuleWindowOpen fresh c =
      ({ c with m_ruleWindow := some (fresh.setRules c.m_rm_rules) }, []) := by
  unfold handleRequestRuleWindowOpen
  split
  · split
    · exact Or.inl rfl
    · exact Or.inr rfl
  · exact Or.inr rfl

theorem scan_log_noScanEnd (c : MainController) (x : Effect) (hx : x ∈ (scan c).2) :
    x.isScanEnd = false := by
  unfold scan at hx
  split at hx
  · simp at hx
    rcases hx with rfl | rfl | rfl <;> rfl
  · simp at hx

/-- Only `handleScanComplete` and `handleFileStats` can emit the completion signal, and
they do so exactly when no scan is running and the counter is zero. -/
theorem step_log_scanEnd (c : MainController) (e : Event) :
    (step c e).2.filter Effect.isScanEnd =
      if (e.isFileStats = true ∨ e.isScanComplete = true)
          ∧ (step c e).1.m_scanning = false ∧ (step c e).1.m_statsRemaining = 0 then
        [Effect.scanEnd c.m_mainWindow.m_scanAborted] else [] := by
  cases e with
  | scanResult target rule view =>
    cases rule <;> simp [step, handleScanResult, Event.isFileStats, Event.isScanComplete, Effect.isScanEnd]
  | rulesUpdated allViews =>
    simp only [step, Event.isFileStats, Event.isScanComplete]
    simp
    intro x hx
    simpa using (rulesUpdated_log_scanEnd _ x hx).1
  | requestRuleWindowOpen fresh =>
    simp only [step, Event.isFileStats, Event.isScanComplete]
    rcases requestOpen_cases fresh c with h | h <;> simp [h, Effect.isScanEnd]
  | changeRuleset ruleset =>
    simp only [step, handleChangeRuleset, Event.isFileStats, Event.isScanComplete]
    simp
    intro x hx
    simpa using scan_log_noScanEnd _ x hx
  | scanComplete err =>
    simp only [step, handleScanComplete, hoc_log, hoc_scanning, hoc_statsRemaining]
    by_cases h : c.m_statsRemaining = 0 <;>
      simp [h, Effect.isScanEnd, Event.isFileStats, Event.isScanComplete]
  | fileStats stats =>
    simp only [step, handleFileStats, hoc_log, hoc_scanning, hoc_statsRemaining,
      Event.isFileStats, Event.isScanComplete]
    by_cases h : c.m_scanning = false ∧ c.m_statsRemaining - 1 = 0 <;>
      simp [h, Effect.isScanEnd]
  | _ =>
    simp [step, handleChangeTargets, handleRuleWindowSave, handleRuleWindowCompile,
      handleCompileWindowRecompile, handleScanAbortButton, handleUserScanAbort,
      Event.isFileStats, Event.isScanComplete, Effect.isScanEnd]

theorem step_scanEnd_post (c : MainController) (e : Event) (x : Effect)
    (hx : x ∈ (step c e).2) (hend : x.isScanEnd = true) :
    (step c e).1.m_scanning = false ∧ (step c e).1.m_statsRemaining = 0 := by
  have hmem : x ∈ (step c e).2.filter Effect.isScanEnd := List.mem_filter.mpr ⟨hx, hend⟩
  rw [step_log_scanEnd] at hmem
  split at hmem
  · rename_i h
    exact h.2
  · simp at hmem

theorem step_scanEnd_flag (c : MainController) (e : Event) (b : Bool)
    (hx : Effect.scanEnd b ∈ (step c e).2) : b = c.m_mainWindow.m_scanAborted := by
  have hmem : Effect.scanEnd b ∈ (step c e).2.filter Effect.isScanEnd :=
    List.mem_filter.mpr ⟨hx, rfl⟩
  rw [step_log_scanEnd] at hmem
  split at hmem
  · simpa using hmem
  · simp at hmem

theorem run_nil (c : MainController) : run c [] = (c, []) := rfl

theorem run_cons (c : MainController) (e : Event) (evs : List Event) :
    run c (e :: evs) = ((run (step c e).1 evs).1, (step c e).2 ++ (run (step c e).1 evs).2) :=
  rfl

theorem run_append (c : MainController) (evs1 evs2 : List Event) :
    run c (evs1 ++ evs2) =
      ((run (run c evs1).1 evs2).1, (run c evs1).2 ++ (run (run c evs1).1 evs2).2) := by
  induction evs1 generalizing c with
  | nil => simp [run_nil]
  | cons e evs ih => simp [run_cons, ih, List.append_assoc]

/-- After any events, the counter is its first value plus the number of sentinels
minus the number of statistics-ready events handled. -/
theorem run_statsRemaining (c : MainController) (evs : List Event) :
    (run c evs).1.m_statsRemaining =
      c.m_statsRemaining + (sentinelCount evs : Int) - (statsCount evs : Int) := by
  induction evs generalizing c with
  | nil => simp [run_nil, sentinelCount, statsCount]
  | cons e evs ih =>
    rw [run_cons]
    simp only [ih, step_statsRemaining, sentinelCount, statsCount, List.countP_cons]
    by_cases h1 : e.isSentinel = true <;> by_cases h2 : e.isFileStats = true <;>
      simp [h1, h2] <;> ring

/-- The log of a run is the concatenation of the logs of its steps. -/
theorem run_log_eq_trace (c : MainController) (evs : List Event) :
    (run c evs).2 = ((trace c evs).map Prod.snd).flatten := by
  induction evs generalizing c with
  | nil => rfl
  | cons e evs ih => simp [run_cons, trace, ih]

theorem trace_scanEnd_post (c : MainController) (evs : List Event)
    (p : MainController × List Effect) (hp : p ∈ trace c evs) (x : Effect) (hx : x ∈ p.2)
    (hend : x.isScanEnd = true) : p.1.m_scanning = false ∧ p.1.m_statsRemaining = 0 := by
  induction evs generalizing c with
  | nil => simp [trace] at hp
  | cons e evs ih =>
    simp only [trace, List.mem_cons] at hp
    rcases hp with rfl | hp
    · exact step_scanEnd_post c e x hx hend
    · exact ih _ hp

theorem getStatsCalls_append (l1 l2 : List Effect) :
    getStatsCalls (l1 ++ l2) = getStatsCalls l1 ++ getStatsCalls l2 := by
  induction l1 with
  | nil => rfl
  | cons x l ih => cases x <;> simp [getStatsCalls, ih]

theorem hoc_getStatsCalls (c : MainController) :
    getStatsCalls (handleOperationsComplete c).2 = [] := by
  rw [hoc_log]
  split <;> rfl

theorem scan_getStatsCalls (c : MainController) : getStatsCalls (scan c).2 = [] := by
  unfold scan
  split <;> rfl

theorem rulesUpdated_getStatsCalls (c : MainController) :
    getStatsCalls (handleRulesUpdated c).2 = [] := by
  unfold handleRulesUpdated
  simp only []
  split <;> rfl

theorem step_getStatsCalls (c : MainController) (e : Event) :
    getStatsCalls (step c e).2 = sentinelTargets [e] := by
  cases e with
  | scanResult target rule view =>
    cases rule <;> simp [step, handleScanResult, getStatsCalls, sentinelTargets]
  | requestRuleWindowOpen fresh =>
    simp only [step]
    rcases requestOpen_cases fresh c with h | h <;> simp [h, getStatsCalls, sentinelTargets]
  | _ =>
    simp [step, handleChangeTargets, handleChangeRuleset, handleScanComplete,
      handleFileStats, handleRuleWindowSave, handleRuleWindowCompile,
      handleCompileWindowRecompile, handleScanAbortButton, handleUserScanAbort,
      hoc_getStatsCalls, scan_getStatsCalls, rulesUpdated_getStatsCalls,
      getStatsCalls, sentinelTargets]

theorem sentinelTargets_cons (e : Event) (evs : List Event) :
    sentinelTargets (e :: evs) = sentinelTargets [e] ++ sentinelTargets evs := by
  cases e with
  | scanResult target rule view => cases rule <;> simp [sentinelTargets]
  | _ => simp [sentinelTargets]

theorem run_getStatsCalls (c : MainController) (evs : List Event) :
    getStatsCalls (run c evs).2 = sentinelTargets evs := by
  induction evs generalizing c with
  | nil => rfl
  | cons e evs ih =>
    rw [run_cons, sentinelTargets_cons]
    simp only [getStatsCalls_append, step_getStatsCalls, ih]

/-- While the scan runs, scan results and statistics events emit no completion
signal and leave `m_scanning` set. -/
theorem run_scanning_phase (pre : List Event) (c : MainController)
    (hs : c.m_scanning = true)
    (hpre : ∀ e ∈ pre, e.isScanResult = true ∨ e.isFileStats = true) :
    (run c pre).1.m_scanning = true ∧ (run c pre).2.countP Effect.isScanEnd = 0 := by
  induction pre generalizing c with
  | nil => simp [run_nil, hs]
  | cons e evs ih =>
    have he := hpre e (List.mem_cons_self _ _)
    have hrest : ∀ e ∈ evs, e.isScanResult = true ∨ e.isFileStats = true :=
      fun x hx => hpre x (List.mem_cons_of_mem _ hx)
    have hstep : (step c e).1.m_scanning = true ∧ (step c e).2.countP Effect.isScanEnd = 0 := by
      cases e with
      | scanResult target rule view =>
        cases rule <;> simp [step, handleScanResult, hs, Effect.isScanEnd]
      | fileStats stats =>
        simp [step, handleFileStats, hoc_scanning, hoc_log, hs, Effect.isScanEnd]
      | _ => simp [Event.isScanResult, Event.isFileStats] at he
    rw [run_cons]
    have h2 := ih (step c e).1 hstep.1 hrest
    refine ⟨h2.1, ?_⟩
    simp [List.countP_append, hstep.2, h2.2]

/-- Once the scan is complete, a run of statistics events that brings the counter from
its length down to zero emits the completion signal once, at its last event. -/
theorem run_draining_phase (post : List Event) (c : MainController)
    (hs : c.m_scanning = false) (hn : c.m_statsRemaining = (post.length : Int))
    (hpost : ∀ e ∈ post, e.isFileStats = true) :
    (run c post).2.countP Effect.isScanEnd = if post = [] then 0 else 1 := by
  induction post generalizing c with
  | nil => simp [run_nil]
  | cons e evs ih =>
    have he := hpost e (List.mem_cons_self _ _)
    have hrest : ∀ e ∈ evs, e.isFileStats = true :=
      fun x hx => hpost x (List.mem_cons_of_mem _ hx)
    cases e with
    | fileStats stats =>
      have hs1 : (step c (Event.fileStats stats)).1.m_scanning = false := by
        simp [step, handleFileStats, hoc_scanning, hs]
      have hn1 : (step c (Event.fileStats stats)).1.m_statsRemaining = (evs.length : Int) := by
        simp [step, handleFileStats, hoc_statsRemaining, hn]
      have hlog : (step c (Event.fileStats stats)).2.countP Effect.isScanEnd =
          if evs = [] then 1 else 0 := by
        simp only [step, handleFileStats, hoc_log, hs, hn]
        cases evs with
        | nil => simp [Effect.isScanEnd]
        | cons a l =>
          simp [Effect.isScanEnd]
          omega
      rw [run_cons]
      simp only [List.countP_append, hlog, ih _ hs1 hn1 hrest]
      cases evs <;> simp
    | _ => simp [Event.isFileStats] at he

theorem scan_started (c : MainController) (ruleset : Option RulesetView)
    (hs : c.m_scanning = false) (htargets : c.m_targets ≠ []) :
    (step c (Event.changeRuleset ruleset)).2 =
        [Effect.scanBegin, Effect.scReset, Effect.rmScan c.m_targets ruleset] ∧
      (step c (Event.changeRuleset ruleset)).1.m_scanning = true ∧
      (step c (Event.changeRuleset ruleset)).1.m_statsRemaining = c.m_statsRemaining ∧
      (step c (Event.changeRuleset ruleset)).1.m_mainWindow.m_scanAborted = false ∧
      (step c (Event.changeRuleset ruleset)).1.m_compileWindows =
        c.m_compileWindows.map (CompileWindow.setEnabled false) := by
  simp [step, handleChangeRuleset, scan, hs, htargets, setCompileWindowsEnabled,
    MainWindow.scanBegin]

theorem rulesUpdated_log_noBegin (c : MainController) :
    (handleRulesUpdated c).2.any Effect.isScanBegin = false := by
  unfold handleRulesUpdated
  simp only []
  split <;> simp [Effect.isScanBegin]

/-- The flag `m_scanAborted` is cleared by `scanBegin`, set by a click on the stop
button, and written by nothing else. -/
theorem step_aborted (c : MainController) (e : Event) :
    (step c e).1.m_mainWindow.m_scanAborted =
      if (step c e).2.any Effect.isScanBegin = true then false
      else if e.isAbort = true then true
      else c.m_mainWindow.m_scanAborted := by
  cases e with
  | scanResult target rule view =>
    cases rule <;> simp [step, handleScanResult, Effect.isScanBegin, Event.isAbort]
  | rulesUpdated allViews =>
    simp [step, rulesUpdated_aborted, rulesUpdated_log_noBegin, Event.isAbort]
  | requestRuleWindowOpen fresh =>
    simp only [step]
    rcases requestOpen_cases fresh c with h | h <;> simp [h, Effect.isScanBegin, Event.isAbort]
  | changeRuleset ruleset =>
    simp only [step, handleChangeRuleset, scan]
    split <;> simp [setCompileWindowsEnabled, MainWindow.scanBegin, Effect.isScanBegin,
      Event.isAbort]
  | scanComplete err =>
    simp only [step, handleScanComplete, hoc_aborted, hoc_log]
    split <;> simp [Effect.isScanBegin, Event.isAbort]
  | fileStats stats =>
    simp only [step, handleFileStats, hoc_aborted, hoc_log]
    split <;> simp [Effect.isScanBegin, Event.isAbort]
  | _ =>
    simp [step, handleChangeTargets, handleRuleWindowSave, handleRuleWindowCompile,
      handleCompileWindowRecompile, handleScanAbortButton, handleUserScanAbort,
      closeCompileWindow, closeRuleWindow, setCompileWindowsEnabled,
      MainWindow.setCompilerBusy, MainWindow.handleScanAbortButton,
      Effect.isScanBegin, Event.isAbort]

/-- As long as no new scan begins, the flag is its earlier value or-ed with "the stop
button was clicked". -/
theorem run_aborted (mid : List Event) (c : MainController)
    (hmid : ∀ x ∈ (run c mid).2, x.isScanBegin = false) :
    (run c mid).1.m_mainWindow.m_scanAborted =
      (c.m_mainWindow.m_scanAborted || mid.any Event.isAbort) := by
  induction mid generalizing c with
  | nil => simp [run_nil]
  | cons e evs ih =>
    rw [run_cons] at hmid ⊢
    have h1 : (step c e).2.any Effect.isScanBegin = false := by
      rw [List.any_eq_false]
      intro x hx
      simpa using hmid x (List.mem_append_left _ hx)
    have h2 : ∀ x ∈ (run (step c e).1 evs).2, x.isScanBegin = false :=
      fun x hx => hmid x (List.mem_append_right _ hx)
    simp only [ih _ h2, step_aborted, h1, List.any_cons]
    cases hab : e.isAbort <;> simp [Bool.or_comm]

/-- The flag carried by a completion signal, in terms of the events since the last
scan-begin. -/
theorem aborted_flag_iff (c : MainController) (ruleset : Option RulesetView)
    (mid : List Event) (e : Event) (b : Bool)
    (hbegin : Effect.scanBegin ∈ (step c (Event.changeRuleset ruleset)).2)
    (hmid : ∀ x ∈ (run (step c (Event.changeRuleset ruleset)).1 mid).2, x.isScanBegin = false)
    (hend : Effect.scanEnd b ∈ (step (run (step c (Event.changeRuleset ruleset)).1 mid).1 e).2) :
    b = true ↔ ∃ x ∈ mid, x.isAbort = true := by
  have hflag := step_scanEnd_flag _ e b hend
  have h0 : (step c (Event.changeRuleset ruleset)).1.m_mainWindow.m_scanAborted = false := by
    rw [step_aborted]
    have : (step c (Event.changeRuleset ruleset)).2.any Effect.isScanBegin = true :=
      List.any_eq_true.mpr ⟨_, hbegin, rfl⟩
    simp [this]
  rw [hflag, run_aborted mid _ hmid, h0]
  simp

theorem rebind_cons (r : RulesetView) (rs : List RulesetView) (w : CompileWindow) :
    rebind (r :: rs) w = rebind rs (if r.file = w.rule.file then w.setRule r else w) := rfl

theorem rebind_visible (rules : List RulesetView) (w : CompileWindow) :
    (rebind rules w).visible = w.visible := by
  induction rules generalizing w with
  | nil => rfl
  | cons r rs ih =>
    rw [rebind_cons, ih]
    split <;> rfl

theorem rebind_file (rules : List RulesetView) (w : CompileWindow) :
    (rebind rules w).rule.file = w.rule.file := by
  induction rules generalizing w with
  | nil => rfl
  | cons r rs ih =>
    rw [rebind_cons, ih]
    split
    · rename_i h
      simpa [CompileWindow.setRule] using h
    · rfl

/-- A window bound to a file that none of the rules has is not touched. -/
theorem rebind_unrelated (rules : List RulesetView) (w : CompileWindow)
    (hno : ∀ v ∈ rules, v.file ≠ w.rule.file) : rebind rules w = w := by
  induction rules with
  | nil => rfl
  | cons r rs ih =>
    rw [rebind_cons, if_neg (hno r (List.mem_cons_self _ _))]
    exact ih (fun v hv => hno v (List.mem_cons_of_mem _ hv))

/-- A window bound to the file of one of the rules ends bound to one of the rules with
that file. -/
theorem rebind_related (rules : List RulesetView) (w : CompileWindow)
    (hyes : ∃ v ∈ rules, v.file = w.rule.file) :
    (rebind rules w).rule ∈ rules ∧ (rebind rules w).rule.file = w.rule.file := by
  refine ⟨?_, rebind_file rules w⟩
  induction rules generalizing w with
  | nil => simp at hyes
  | cons r rs ih =>
    rw [rebind_cons]
    by_cases hr : r.file = w.rule.file
    · rw [if_pos hr]
      by_cases hrest : ∃ v ∈ rs, v.file = (w.setRule r).rule.file
      · exact List.mem_cons_of_mem _ (ih _ hrest)
      · have hno : ∀ v ∈ rs, v.file ≠ (w.setRule r).rule.file := by
          intro v hv hfile
          exact hrest ⟨v, hv, hfile⟩
        rw [rebind_unrelated rs _ hno]
        simp [CompileWindow.setRule]
    · rw [if_neg hr]
      have hrest : ∃ v ∈ rs, v.file = w.rule.file := by
        obtain ⟨v, hv, hfile⟩ := hyes
        rcases List.mem_cons.mp hv with rfl | hv
        · exact absurd hfile hr
        · exact ⟨v, hv, hfile⟩
      exact List.mem_cons_of_mem _ (ih _ hrest)

theorem refreshWindows_eq (r : RulesetView) (ws : List CompileWindow) :
    refreshWindows r ws = (ws.filter (fun w => w.visible)).map (rebind [r]) := rfl

/-- The loop of `handleRulesUpdated` over a non-empty rule list: the windows that are
not visible are erased (at the first rule), the others are re-bound in place. -/
theorem foldl_refresh_cons (r : RulesetView) (rs : List RulesetView)
    (ws : List CompileWindow) :
    (r :: rs).foldl (fun ws rule => refreshWindows rule ws) ws =
      (ws.filter (fun w => w.visible)).map (rebind (r :: rs)) := by
  induction rs generalizing r ws with
  | nil => rfl
  | cons r2 rs ih =>
    rw [List.foldl_cons, ih, refreshWindows_eq, List.filter_map, List.map_map]
    have hfilter : List.filter ((fun w => w.visible) ∘ rebind [r])
        (List.filter (fun w => w.visible) ws) = List.filter (fun w => w.visible) ws := by
      rw [List.filter_filter]
      congr 1
      funext w
      simp [rebind_visible]
    rw [hfilter]
    rfl

theorem rulesUpdated_windows (c : MainController) :
    (handleRulesUpdated c).1.m_compileWindows =
      if c.m_scanning = false then
        (c.m_rm_rules.foldl (fun ws rule => refreshWindows rule ws) c.m_compileWindows).map
          (CompileWindow.setEnabled true)
      else c.m_rm_rules.foldl (fun ws rule => refreshWindows rule ws) c.m_compileWindows := by
  unfold handleRulesUpdated
  simp only [foldl_update_eq]
  split <;> simp [setCompileWindowsEnabled]

/-- For a non-empty rule list, `handleRulesUpdated` leaves exactly the windows that
were visible, in their order, each re-bound by `rebind` (and enabled when no scan is
running); a window bound to the file of one of the rules is then bound to one of the
rules with that file. -/
theorem rulesUpdated_windows_of_rules (c : MainController) (r : RulesetView)
    (rs : List RulesetView) (hrules : c.m_rm_rules = r :: rs) :
    (handleRulesUpdated c).1.m_compileWindows =
        (c.m_compileWindows.filter (fun w => w.visible)).map
          (fun w =>
            if c.m_scanning = false then (rebind (r :: rs) w).setEnabled true
            else rebind (r :: rs) w) ∧
      (∀ w ∈ (handleRulesUpdated c).1.m_compileWindows, w.visible = true) ∧
      (∀ w ∈ (handleRulesUpdated c).1.m_compileWindows,
        (∃ v ∈ r :: rs, v.file = w.rule.file) →
          w.rule ∈ r :: rs) := by
  have heq : (handleRulesUpdated c).1.m_compileWindows =
      (c.m_compileWindows.filter (fun w => w.visible)).map
        (fun w =>
          if c.m_scanning = false then (rebind (r :: rs) w).setEnabled true
          else rebind (r :: rs) w) := by
    rw [rulesUpdated_windows, hrules, foldl_refresh_cons]
    split <;> simp [List.map_map, Function.comp_def]
  refine ⟨heq, ?_, ?_⟩
  · intro w hw
    rw [heq, List.mem_map] at hw
    obtain ⟨w0, hw0, rfl⟩ := hw
    have hv : w0.visible = true := by simpa using (List.mem_filter.mp hw0).2
    split <;> simp [CompileWindow.setEnabled, rebind_visible, hv]
  · intro w hw hyes
    rw [heq, List.mem_map] at hw
    obtain ⟨w0, -, rfl⟩ := hw
    have hfile : ∀ v : RulesetView, v.file =
        (if c.m_scanning = false then (rebind (r :: rs) w0).setEnabled true
          else rebind (r :: rs) w0).rule.file → v.file = w0.rule.file := by
      intro v hv
      split at hv <;> simpa [CompileWindow.setEnabled, rebind_file] using hv
    obtain ⟨v, hv, hvfile⟩ := hyes
    have hrel := (rebind_related (r :: rs) w0 ⟨v, hv, hfile v hvfile⟩).1
    split <;> simpa [CompileWindow.setEnabled] using hrel

/-- The part of C2 the code does have: while `m_scanning` is set, a ruleset selection
makes no call and changes only the stored selection. -/
theorem scan_noop_while_scanning (c : MainController) (ruleset : Option RulesetView)
    (hs : c.m_scanning = true) :
    handleChangeRuleset ruleset c =
      ({ c with m_ruleset := ruleset, m_haveRuleset := true }, []) := by
  simp [handleChangeRuleset, scan, hs]

theorem rebind_enabled (rules : List RulesetView) (w : CompileWindow) :
    (rebind rules w).enabled = w.enabled := by
  induction rules generalizing w with
  | nil => rfl
  | cons r rs ih =>
    rw [rebind_cons, ih]
    split <;> rfl

/-- The loop of `handleRulesUpdated` calls `setEnabled` on no window: every window it
leaves has the enabled state of a window that was there. -/
theorem foldl_refresh_enabled (rules : List RulesetView) (ws : List CompileWindow)
    (w : CompileWindow)
    (hw : w ∈ rules.foldl (fun ws rule => refreshWindows rule ws) ws) :
    ∃ w0 ∈ ws, w.enabled = w0.enabled := by
  cases rules with
  | nil => exact ⟨w, by simpa using hw, rfl⟩
  | cons r rs =>
    rw [foldl_refresh_cons, List.mem_map] at hw
    obtain ⟨w0, hw0, rfl⟩ := hw
    exact ⟨w0, (List.mem_filter.mp hw0).1, rebind_enabled _ w0⟩

theorem hoc_of_scanning (c : MainController) (hs : c.m_scanning = true) :
    handleOperationsComplete c = (c, []) := by
  simp [handleOperationsComplete, hs]

theorem hoc_windows (c : MainController) :
    (handleOperationsComplete c).1.m_compileWindows =
      if c.m_scanning = false ∧ c.m_statsRemaining = 0 then
        c.m_compileWindows.map (CompileWindow.setEnabled true)
      else c.m_compileWindows := by
  unfold handleOperationsComplete
  by_cases h1 : c.m_scanning = true <;> by_cases h2 : c.m_statsRemaining = 0 <;>
    simp [h1, h2]
  cases h : c.m_ruleWindow with
  | none => simp [setCompileWindowsEnabled]
  | some rw => by_cases hv : rw.visible <;> simp [hv, setCompileWindowsEnabled]

/-- Closing a window changes no enabled state. -/
theorem closeCompileWindow_enabled (i : Nat) (c : MainController) (w : CompileWindow)
    (hw : w ∈ (closeCompileWindow i c).m_compileWindows) :
    ∃ w0 ∈ c.m_compileWindows, w.enabled = w0.enabled := by
  have key : ∀ (l : List CompileWindow) (n : Nat),
      w ∈ l.modify (fun x => { x with visible := false }) n →
        ∃ w0 ∈ l, w.enabled = w0.enabled := by
    intro l
    induction l with
    | nil =>
      intro n h
      cases n <;> simp [List.modify] at h
    | cons a l ih =>
      intro n h
      cases n with
      | zero =>
        simp only [List.modify, List.modifyHead, List.modifyTailIdx, List.mem_cons] at h
        rcases h with rfl | h
        · exact ⟨a, List.mem_cons_self _ _, rfl⟩
        · exact ⟨w, List.mem_cons_of_mem _ h, rfl⟩
      | succ n =>
        simp only [List.modify, List.modifyTailIdx, List.mem_cons] at h
        rcases h with rfl | h
        · exact ⟨w, List.mem_cons_self _ _, rfl⟩
        · obtain ⟨w0, hw0, he⟩ := ih n h
          exact ⟨w0, List.mem_cons_of_mem _ hw0, he⟩
  exact key _ _ hw

/-- What one event can do to the enabled states of the compile sessions: disable all
of them, leave each with an enabled state that was already there, or (in the two
cases named) enable them. -/
theorem step_sessions (c : MainController) (e : Event) :
    AllSessionsDisabled (step c e).1 ∨
    (∀ w ∈ (step c e).1.m_compileWindows, ∃ w0 ∈ c.m_compileWindows, w.enabled = w0.enabled) ∨
    (e.isRulesUpdated = true ∧ c.m_scanning = false) ∨
    (∃ x ∈ (step c e).2, x.isScanEnd = true) := by
  cases e with
  | changeTargets files =>
    exact Or.inr (Or.inl fun w hw => ⟨w, hw, rfl⟩)
  | changeRuleset ruleset =>
    simp only [step, handleChangeRuleset, scan]
    split
    · left
      intro w hw
      simp only [setCompileWindowsEnabled, List.mem_map] at hw
      obtain ⟨w0, -, rfl⟩ := hw
      rfl
    · exact Or.inr (Or.inl fun w hw => ⟨w, hw, rfl⟩)
  | scanResult target rule view =>
    right; left
    intro w hw
    cases rule <;> exact ⟨w, by simpa [step, handleScanResult] using hw, rfl⟩
  | scanComplete err =>
    simp only [step, handleScanComplete, hoc_windows, hoc_log]
    split
    · right; right; right
      exact ⟨_, List.mem_singleton.mpr rfl, rfl⟩
    · exact Or.inr (Or.inl fun w hw => ⟨w, hw, rfl⟩)
  | rulesUpdated allViews =>
    by_cases hs : c.m_scanning = false
    · exact Or.inr (Or.inr (Or.inl ⟨rfl, hs⟩))
    · right; left
      intro w hw
      simp only [step, rulesUpdated_windows, hs, if_false] at hw
      exact foldl_refresh_enabled allViews _ w hw
  | fileStats stats =>
    simp only [step, handleFileStats, hoc_windows, hoc_log]
    split
    · right; right; right
      exact ⟨_, List.mem_cons_of_mem _ (List.mem_singleton.mpr rfl), rfl⟩
    · exact Or.inr (Or.inl fun w hw => ⟨w, hw, rfl⟩)
  | requestRuleWindowOpen fresh =>
    right; left
    intro w hw
    simp only [step] at hw
    rcases requestOpen_cases fresh c with h | h <;> rw [h] at hw <;> exact ⟨w, hw, rfl⟩
  | ruleWindowSave rules =>
    exact Or.inr (Or.inl fun w hw => ⟨w, hw, rfl⟩)
  | ruleWindowCompile view =>
    left
    intro w hw
    simp only [step, handleRuleWindowCompile, handleCompileWindowRecompile,
      setCompileWindowsEnabled, List.mem_map] at hw
    obtain ⟨w0, -, rfl⟩ := hw
    rfl
  | compileWindowRecompile view =>
    left
    intro w hw
    simp only [step, handleCompileWindowRecompile, setCompileWindowsEnabled,
      List.mem_map] at hw
    obtain ⟨w0, -, rfl⟩ := hw
    rfl
  | scanAbort =>
    exact Or.inr (Or.inl fun w hw => ⟨w, hw, rfl⟩)
  | compileWindowClosed i =>
    exact Or.inr (Or.inl fun w hw => closeCompileWindow_enabled i c w hw)
  | ruleWindowClosed =>
    exact Or.inr (Or.inl fun w hw => ⟨w, hw, rfl⟩)

/-- An event leaves `m_scanning` set only if it was set before, or the event has just
started the scan, and then `scan` has disabled every session. -/
theorem step_scanning_origin (c : MainController) (e : Event)
    (hs : (step c e).1.m_scanning = true) :
    c.m_scanning = true ∨ AllSessionsDisabled (step c e).1 := by
  cases e with
  | changeRuleset ruleset =>
    simp only [step, handleChangeRuleset, scan] at hs ⊢
    split
    · right
      intro w hw
      simp only [setCompileWindowsEnabled, List.mem_map] at hw
      obtain ⟨w0, -, rfl⟩ := hw
      rfl
    · rename_i h
      rw [if_neg h] at hs
      exact Or.inl hs
  | scanResult target rule view =>
    cases rule <;> exact Or.inl (by simpa [step, handleScanResult] using hs)
  | scanComplete err =>
    simp [step, handleScanComplete, hoc_scanning] at hs
  | rulesUpdated allViews =>
    exact Or.inl (by simpa [step, rulesUpdated_scanning] using hs)
  | fileStats stats =>
    exact Or.inl (by simpa [step, handleFileStats, hoc_scanning] using hs)
  | requestRuleWindowOpen fresh =>
    simp only [step] at hs
    rcases requestOpen_cases fresh c with h | h <;> rw [h] at hs <;> exact Or.inl hs
  | _ => exact Or.inl hs

/-- While `m_scanning` is set every compile session is disabled: the property is kept
by every event. -/
theorem step_keeps_disabled_while_scanning (c : MainController) (e : Event)
    (hinv : c.m_scanning = true → AllSessionsDisabled c) :
    (step c e).1.m_scanning = true → AllSessionsDisabled (step c e).1 := by
  intro hs
  rcases step_scanning_origin c e hs with hpre | hall
  · rcases step_sessions c e with h | h | h | h
    · exact h
    · intro w hw
      obtain ⟨w0, hw0, he⟩ := h w hw
      rw [he]
      exact hinv hpre w0 hw0
    · rw [h.2] at hpre
      cases hpre
    · obtain ⟨x, hx, hend⟩ := h
      rw [(step_scanEnd_post c e x hx hend).1] at hs
      cases hs
  · exact hall

theorem run_keeps_disabled_while_scanning (evs : List Event) (c : MainController)
    (hinv : c.m_scanning = true → AllSessionsDisabled c) :
    (run c evs).1.m_scanning = true → AllSessionsDisabled (run c evs).1 := by
  induction evs generalizing c with
  | nil => exact hinv
  | cons e evs ih =>
    rw [run_cons]
    exact ih _ (step_keeps_disabled_while_scanning c e hinv)

/-- The part of C5 the code does have: for a scan begun by a ruleset selection and any
events after it that begin no other scan, the flag carried by a completion signal is
true exactly when the stop button was clicked after that scan-begin and before the
signal (while scanning or while draining); the click itself emits no completion
signal and leaves `m_scanning` and `m_statsRemaining` alone, and the signal still
comes only with `m_scanning == false` and `m_statsRemaining == 0`. -/
theorem abort_carried_when_not_superseded (c : MainController) (ruleset : Option RulesetView)
    (mid : List Event) (e : Event) (b : Bool)
    (hbegin : Effect.scanBegin ∈ (step c (Event.changeRuleset ruleset)).2)
    (hmid : ∀ x ∈ (run (step c (Event.changeRuleset ruleset)).1 mid).2, x.isScanBegin = false)
    (hend : Effect.scanEnd b ∈ (step (run (step c (Event.changeRuleset ruleset)).1 mid).1 e).2) :
    (b = true ↔ ∃ x ∈ mid, x.isAbort = true) ∧
    (∀ s : MainController,
      (step s Event.scanAbort).2 = [Effect.rmScanAbort, Effect.scAbort] ∧
      (step s Event.scanAbort).1.m_scanning = s.m_scanning ∧
      (step s Event.scanAbort).1.m_statsRemaining = s.m_statsRemaining) ∧
    ((step (run (step c (Event.changeRuleset ruleset)).1 mid).1 e).1.m_scanning = false ∧
      (step (run (step c (Event.changeRuleset ruleset)).1 mid).1 e).1.m_statsRemaining = 0) := by
  refine ⟨aborted_flag_iff c ruleset mid e b hbegin hmid hend, ?_,
    step_scanEnd_post _ e _ hend rfl⟩
  intro s
  simp [step, handleScanAbortButton, handleUserScanAbort]

/-- An instance of `abort_carried_when_not_superseded`: the stop button is clicked
while draining, after scan-complete and before the outstanding statistics arrive; the
completion signal carries `true`. -/
theorem abort_carried_when_not_superseded_example :
    Effect.scanBegin ∈ (step readyState (Event.changeRuleset none)).2 ∧
    Effect.scanEnd true ∈
      (step (run (step readyState (Event.changeRuleset none)).1
        [Event.scanResult "/a.bin" none none, Event.scanComplete "", Event.scanAbort]).1
        (Event.fileStats ⟨"/a.bin", ""⟩)).2 ∧
    (true = true ↔ ∃ x ∈ [Event.scanResult "/a.bin" none none, Event.scanComplete "",
      Event.scanAbort], x.isAbort = true) :=
  ⟨by decide, by decide,
    (abort_carried_when_not_superseded readyState none
      [Event.scanResult "/a.bin" none none, Event.scanComplete "", Event.scanAbort]
      (Event.fileStats ⟨"/a.bin", ""⟩) true (by decide) (by decide) (by decide)).1⟩

/-! ## The claims -/

/-- C1: from an idle state with targets, a ruleset selection starts a scan; then, for
any scan results and statistics events, one scan-complete and the remaining statistics
events, with one statistics event per sentinel delivered after it, the completion
signal `scanEnd` is emitted exactly once in the whole run, every step that emits it
ends with `m_scanning == false` and `m_statsRemaining == 0`, and with two sentinels
before scan-complete it is emitted neither at scan-complete nor at the first
statistics event but at the second. -/
theorem C1_completion_emitted_once (c : MainController) (ruleset : Option RulesetView)
    (pre post : List Event) (err : String)
    (hidle : Idle c) (htargets : c.m_targets ≠ [])
    (hpre : ∀ e ∈ pre, e.isScanResult = true ∨ e.isFileStats = true)
    (hpost : ∀ e ∈ post, e.isFileStats = true)
    (hafter : ∀ k ≤ (pre ++ post).length,
      statsCount ((pre ++ post).take k) ≤ sentinelCount ((pre ++ post).take k))
    (hall : statsCount (pre ++ post) = sentinelCount (pre ++ post)) :
    Effect.scanBegin ∈ (step c (Event.changeRuleset ruleset)).2 ∧
    (run c (Event.changeRuleset ruleset :: (pre ++ Event.scanComplete err :: post))).2.countP
        Effect.isScanEnd = 1 ∧
    (∀ p ∈ trace c (Event.changeRuleset ruleset :: (pre ++ Event.scanComplete err :: post)),
      ∀ x ∈ p.2, x.isScanEnd = true → p.1.m_scanning = false ∧ p.1.m_statsRemaining = 0) ∧
    (∀ (t1 t2 : String) (v1 v2 : Option RulesetView) (st1 st2 : FileStats),
      (trace c [Event.changeRuleset ruleset, Event.scanResult t1 none v1,
          Event.scanResult t2 none v2, Event.scanComplete err, Event.fileStats st1,
          Event.fileStats st2]).map (fun p => p.2.any Effect.isScanEnd) =
        [false, false, false, false, false, true]) := by
  obtain ⟨hs, h0⟩ := hidle
  obtain ⟨hlog, hs1, hn1, -, -⟩ := scan_started c ruleset hs htargets
  refine ⟨by simp [hlog], ?_, fun p hp x hx hend => trace_scanEnd_post c _ p hp x hx hend, ?_⟩
  · -- the three phases of the run
    obtain ⟨hs2, hcount2⟩ := run_scanning_phase pre _ hs1 hpre
    have hn2 := run_statsRemaining (step c (Event.changeRuleset ruleset)).1 pre
    rw [hn1, h0] at hn2
    have hsplit : sentinelCount (pre ++ post) = sentinelCount pre ∧
        statsCount (pre ++ post) = statsCount pre + post.length := by
      constructor
      · simp only [sentinelCount, List.countP_append]
        have : List.countP Event.isSentinel post = 0 := by
          rw [List.countP_eq_zero]
          intro e he
          have := hpost e he
          cases e <;> simp_all [Event.isFileStats, Event.isSentinel]
        omega
      · simp only [statsCount, List.countP_append]
        have : List.countP Event.isFileStats post = post.length := by
          rw [List.countP_eq_length]
          exact hpost
        omega
    have hn3 : (run (step c (Event.changeRuleset ruleset)).1 pre).1.m_statsRemaining =
        (post.length : Int) := by
      rw [hn2]
      omega
    rw [run_cons, run_append, run_cons]
    simp only [List.countP_append, hcount2, hlog]
    generalize (run (step c (Event.changeRuleset ruleset)).1 pre).1 = c2 at hn3 hs2 ⊢
    have hcomplete := step_log_scanEnd c2 (Event.scanComplete err)
    have hs4 : (step c2 (Event.scanComplete err)).1.m_scanning = false := by
      simp [step, handleScanComplete, hoc_scanning]
    have hn4 : (step c2 (Event.scanComplete err)).1.m_statsRemaining = (post.length : Int) := by
      simp [step, handleScanComplete, hoc_statsRemaining, hn3]
    have hdrain := run_draining_phase post _ hs4 hn4 hpost
    rw [hdrain, List.countP_eq_length_filter (l := (step c2 (Event.scanComplete err)).2),
      hcomplete, hs4, hn4]
    cases post with
    | nil => simp [Effect.isScanEnd, Event.isScanComplete]
    | cons a l =>
      simp [Effect.isScanEnd, Event.isScanComplete]
      omega
  · intro t1 t2 v1 v2 st1 st2
    simp [trace, step, handleChangeRuleset, scan, hs, htargets, setCompileWindowsEnabled,
      handleScanResult, handleScanComplete, handleFileStats, hoc_log, hoc_scanning,
      hoc_statsRemaining, h0, Effect.isScanEnd]

/-- Witness for C1: two targets, one match, the statistics of the first target before
scan-complete and those of the second after it. -/
theorem C1_completion_emitted_once_witness :
    Idle readyState ∧ readyState.m_targets ≠ [] ∧
    (run readyState (Event.changeRuleset (some viewR1) ::
      (sampleBeforeComplete ++ Event.scanComplete "" :: sampleAfterComplete))).2.countP
        Effect.isScanEnd = 1 :=
  ⟨by decide, by decide,
    (C1_completion_emitted_once readyState (some viewR1) sampleBeforeComplete
      sampleAfterComplete "" (by decide) (by decide) (by decide) (by decide) (by decide)
      (by decide)).2.1⟩

/-- C2 on the code: `scan` only looks at `m_scanning`. While draining (scan complete,
one statistics request outstanding) and while a compile is busy (compile requested,
inputs disabled, no rules-updated yet), the selection of a rule file starts a scan:
scan-begin, a reset of the Statistics Engine and a Rule Engine scan call are issued
and `m_scanning` is set. -/
theorem C2_scan_starts_while_draining_or_compiling :
    (drainingState.m_scanning = false ∧ drainingState.m_statsRemaining = 1 ∧
      (step drainingState (Event.changeRuleset (some viewR1))).2 =
        [Effect.scanBegin, Effect.scReset, Effect.rmScan ["/a.bin"] (some viewR1)] ∧
      (step drainingState (Event.changeRuleset (some viewR1))).1.m_scanning = true) ∧
    (compilingState.m_scanning = false ∧
      compilingState.m_mainWindow.inputsEnabled = false ∧
      (run (MainController.init [viewR1] false)
        [Event.changeTargets ["/a.bin"], Event.ruleWindowCompile viewR1]).2 =
        [Effect.setCompilerBusy true, Effect.rmCompile viewR1] ∧
      (step compilingState (Event.changeRuleset (some viewR1))).2 =
        [Effect.scanBegin, Effect.scReset, Effect.rmScan ["/a.bin"] (some viewR1)] ∧
      (step compilingState (Event.changeRuleset (some viewR1))).1.m_scanning = true) := by
  decide

/-- C3: starting from a counter of zero, along any list of events in which every
statistics-ready event answers an earlier sentinel (each initial segment holds at
least as many sentinels as statistics-ready events), `m_statsRemaining` is
non-negative after every step and equals the number of sentinels seen so far minus
the number of statistics-ready events seen so far. -/
theorem C3_statsRemaining_counts_outstanding (c : MainController) (evs : List Event)
    (h0 : c.m_statsRemaining = 0)
    (hanswer : ∀ k ≤ evs.length, statsCount (evs.take k) ≤ sentinelCount (evs.take k)) :
    ∀ k ≤ evs.length,
      0 ≤ (run c (evs.take k)).1.m_statsRemaining ∧
      (run c (evs.take k)).1.m_statsRemaining =
        (sentinelCount (evs.take k) : Int) - (statsCount (evs.take k) : Int) := by
  intro k hk
  have hle := hanswer k hk
  rw [run_statsRemaining, h0]
  constructor
  · omega
  · ring

/-- Witness for C3: two targets, both sentinels before both statistics events. -/
theorem C3_statsRemaining_counts_outstanding_witness :
    (MainController.init [] false).m_statsRemaining = 0 ∧
    (∀ k ≤ sampleInterleaving.length,
      statsCount (sampleInterleaving.take k) ≤ sentinelCount (sampleInterleaving.take k)) ∧
    (∀ k ≤ sampleInterleaving.length,
      0 ≤ (run (MainController.init [] false) (sampleInterleaving.take k)).1.m_statsRemaining ∧
      (run (MainController.init [] false) (sampleInterleaving.take k)).1.m_statsRemaining =
        (sentinelCount (sampleInterleaving.take k) : Int) -
          (statsCount (sampleInterleaving.take k) : Int)) :=
  ⟨rfl, by decide,
    C3_statsRemaining_counts_outstanding (MainController.init [] false) sampleInterleaving
      rfl (by decide)⟩

/-- C4: a sentinel scan result for target `T` issues exactly one `getStats(T)` and adds
one to the counter; a scan result carrying a rule issues no `getStats` and leaves the
counter alone; hence over any list of events the `getStats` calls are, in order, the
targets of the sentinel events. -/
theorem C4_getStats_per_sentinel :
    (∀ (c : MainController) (target : String) (view : Option RulesetView),
      getStatsCalls (handleScanResult target none view c).2 = [target] ∧
      (handleScanResult target none view c).1.m_statsRemaining = c.m_statsRemaining + 1) ∧
    (∀ (c : MainController) (target : String) (r : ScannerRule) (view : Option RulesetView),
      getStatsCalls (handleScanResult target (some r) view c).2 = [] ∧
      (handleScanResult target (some r) view c).1.m_statsRemaining = c.m_statsRemaining) ∧
    (∀ (c : MainController) (evs : List Event),
      getStatsCalls (run c evs).2 = sentinelTargets evs) := by
  refine ⟨?_, ?_, run_getStatsCalls⟩
  · intro c target view
    simp [handleScanResult, getStatsCalls]
  · intro c target r view
    simp [handleScanResult, getStatsCalls]

/-- C5 on the code: the stop button is clicked while the scan of `/a.bin` runs, with one
statistics request outstanding; after scan-complete, while draining, a rule file is
selected and `scan` starts a second scan (its guard only looks at `m_scanning`), whose
`scanBegin` clears `m_scanAborted`. The only completion signal of the run then carries
`false` and the status reads "Operation complete", although abort was requested
while scanning. -/
theorem C5_abort_lost_when_scan_restarts :
    (trace (MainController.init [viewR1] false) sampleAbortThenRestart).map
        (fun p => (p.1.m_scanning, p.1.m_statsRemaining, p.1.m_mainWindow.m_scanAborted)) =
      [(false, 0, false), (true, 0, false), (true, 1, false), (true, 1, true),
        (false, 1, true), (true, 1, false), (false, 1, false), (false, 0, false)] ∧
    (run (MainController.init [viewR1] false) sampleAbortThenRestart).2.filter
        Effect.isScanEnd = [Effect.scanEnd false] ∧
    (run (MainController.init [viewR1] false) sampleAbortThenRestart).2.countP
        Effect.isScanBegin = 2 ∧
    (run (MainController.init [viewR1] false) sampleAbortThenRestart).2.filter
        Effect.isCancel = [Effect.rmScanAbort, Effect.scAbort] ∧
    (run (MainController.init [viewR1] false) sampleAbortThenRestart).1.m_mainWindow.status =
      "Operation complete" := by
  decide

/-- Counterexample to C6: with nothing outstanding, a statistics-ready event brings the
counter to `-1` and is forwarded to the main window; and while one request (for
`/a.bin`) is outstanding, an event for a file that was never requested is forwarded
and completes the operation. -/
theorem C6_counterexample_unrequested_stats :
    (Idle readyState ∧
      (handleFileStats ⟨"/x.bin", ""⟩ readyState).1.m_statsRemaining = -1 ∧
      (handleFileStats ⟨"/x.bin", ""⟩ readyState).2 =
        [Effect.updateFileStats ⟨"/x.bin", ""⟩]) ∧
    (getStatsCalls (run (MainController.init [viewR1] false)
        [Event.changeTargets ["/a.bin"], Event.changeRuleset none,
          Event.scanResult "/a.bin" none none, Event.scanComplete ""]).2 = ["/a.bin"] ∧
      (handleFileStats ⟨"/x.bin", ""⟩ drainingState).1.m_statsRemaining = 0 ∧
      (handleFileStats ⟨"/x.bin", ""⟩ drainingState).2 =
        [Effect.updateFileStats ⟨"/x.bin", ""⟩, Effect.scanEnd false]) := by
  decide

/-- C6, as the code has it: `handleFileStats` handles every statistics-ready event
without looking for an outstanding request: it takes one off `m_statsRemaining`
(below zero when nothing is outstanding), forwards the record with one
`updateFileStats` call, and then emits the completion signal exactly when no scan is
running and the counter has just become zero. -/
theorem C6_fileStats_always_counted :
    ∀ (stats : FileStats) (c : MainController),
      (handleFileStats stats c).1.m_statsRemaining = c.m_statsRemaining - 1 ∧
      (handleFileStats stats c).1.m_scanning = c.m_scanning ∧
      (handleFileStats stats c).2 =
        Effect.updateFileStats stats ::
          (if c.m_scanning = false ∧ c.m_statsRemaining = 1 then
            [Effect.scanEnd c.m_mainWindow.m_scanAborted] else []) := by
  intro stats c
  refine ⟨by simp [handleFileStats, hoc_statsRemaining],
    by simp [handleFileStats, hoc_scanning], ?_⟩
  simp only [handleFileStats, hoc_log]
  have : (c.m_statsRemaining - 1 = 0) = (c.m_statsRemaining = 1) := by
    apply propext
    constructor <;> intro h <;> omega
  simp only [this]

/-- C7: when the Rule Engine reports `allViews` and a visible compile session is bound
to a view whose file path no entry of `allViews` has, the session is still registered
after `handleRulesUpdated`, bound to the same view and with no `setRule` call
received: it is the same record, except that it is enabled when no scan is running. -/
theorem C7_unrelated_update_keeps_session (c : MainController) (allViews : List RulesetView)
    (w : CompileWindow) (hw : w ∈ c.m_compileWindows) (hvis : w.visible = true)
    (hno : ∀ v ∈ allViews, v.file ≠ w.rule.file) :
    { w with enabled := if c.m_scanning = false then true else w.enabled } ∈
      (step c (Event.rulesUpdated allViews)).1.m_compileWindows := by
  have hfold : w ∈ allViews.foldl (fun ws rule => refreshWindows rule ws) c.m_compileWindows := by
    cases allViews with
    | nil => simpa using hw
    | cons r rs =>
      rw [foldl_refresh_cons, List.mem_map]
      exact ⟨w, List.mem_filter.mpr ⟨hw, by simpa using hvis⟩, rebind_unrelated _ w hno⟩
  simp only [step, rulesUpdated_windows]
  split
  · rw [List.mem_map]
    exact ⟨w, hfold, rfl⟩
  · simpa using hfold

/-- Witness for C7: an open session bound to `/rules/r1.yar` and an update that only
mentions `/rules/r2.yar`. -/
theorem C7_unrelated_update_keeps_session_witness :
    CompileWindow.mk viewR1Compiled true true 1 ∈ openSessionState.m_compileWindows ∧
    CompileWindow.mk viewR1Compiled true true 1 ∈
      (step openSessionState (Event.rulesUpdated [viewR2])).1.m_compileWindows :=
  ⟨by decide,
    C7_unrelated_update_keeps_session openSessionState [viewR2]
      (CompileWindow.mk viewR1Compiled true true 1) (by decide) (by decide) (by decide)⟩

/-- C8 on the code: the erasure of closed windows sits inside `updateCompileWindows`,
which `handleRulesUpdated` calls once per rule. With an empty rule list it is never
called: the closed session stays registered, while any non-empty list erases it. -/
theorem C8_empty_update_keeps_closed_session :
    closedSessionState.m_compileWindows = [CompileWindow.mk viewR1Compiled false true 1] ∧
    (step closedSessionState (Event.rulesUpdated [])).1.m_compileWindows =
      [CompileWindow.mk viewR1Compiled false true 1] ∧
    (step closedSessionState (Event.rulesUpdated [viewR2])).1.m_compileWindows = [] := by
  decide

/-- C9: in the idle state, after `handleChangeTargets files`, a ruleset selection with
a non-empty `files` sets `m_scanning`, emits scan-begin once, resets the Statistics
Engine once, calls the Rule Engine scan once with `files` and the ruleset just
selected, and disables every compile session; with an empty `files` it makes no call,
leaves `m_scanning` false and leaves the compile sessions as they were. -/
theorem C9_idle_selection_starts_scan (c : MainController) (files : List String)
    (ruleset : Option RulesetView) (hidle : Idle c) :
    (files ≠ [] →
      (handleChangeRuleset ruleset (handleChangeTargets files c).1).2 =
          [Effect.scanBegin, Effect.scReset, Effect.rmScan files ruleset] ∧
        (handleChangeRuleset ruleset (handleChangeTargets files c).1).1.m_scanning = true ∧
        (handleChangeRuleset ruleset (handleChangeTargets files c).1).1.m_compileWindows =
          c.m_compileWindows.map (CompileWindow.setEnabled false) ∧
        (∀ w ∈ (handleChangeRuleset ruleset (handleChangeTargets files c).1).1.m_compileWindows,
          w.enabled = false)) ∧
    (files = [] →
      (handleChangeRuleset ruleset (handleChangeTargets files c).1).2 = [] ∧
        (handleChangeRuleset ruleset (handleChangeTargets files c).1).1.m_scanning = false ∧
        (handleChangeRuleset ruleset (handleChangeTargets files c).1).1.m_compileWindows =
          c.m_compileWindows ∧
        (handleChangeRuleset ruleset (handleChangeTargets files c).1).1.m_mainWindow =
          c.m_mainWindow) := by
  obtain ⟨hs, -⟩ := hidle
  constructor
  · intro hne
    simp [handleChangeRuleset, handleChangeTargets, scan, hs, hne, setCompileWindowsEnabled,
      CompileWindow.setEnabled]
  · intro he
    simp [handleChangeRuleset, handleChangeTargets, scan, he, hs]

/-- Witness for C9: two targets selected, then the "all rules" selection. -/
theorem C9_idle_selection_starts_scan_witness :
    Idle (MainController.init [viewR1] false) ∧
    (handleChangeRuleset none
      (handleChangeTargets ["/a.bin", "/b.bin"] (MainController.init [viewR1] false)).1).2 =
        [Effect.scanBegin, Effect.scReset, Effect.rmScan ["/a.bin", "/b.bin"] none] :=
  ⟨by decide,
    ((C9_idle_selection_starts_scan (MainController.init [viewR1] false)
      ["/a.bin", "/b.bin"] none (by decide)).1 (by decide)).1⟩

/-- Counterexample to C10: in the idle state a click on the stop button issues both
cancellation calls and sets `m_scanAborted`. -/
theorem C10_counterexample_idle_abort_calls_engines :
    Idle readyState ∧
    (handleUserScanAbort readyState).2 = [Effect.rmScanAbort, Effect.scAbort] ∧
    (step readyState Event.scanAbort).2 = [Effect.rmScanAbort, Effect.scAbort] ∧
    readyState.m_mainWindow.m_scanAborted = false ∧
    (step readyState Event.scanAbort).1.m_mainWindow.m_scanAborted = true := by
  decide

/-- C10, as the code has it: a click on the stop button in the idle state still
forwards the cancellation to both engines (one `scanAbort`, one `abort`), emits no
completion signal, and changes nothing in the controller except what
`handleScanAbortButton` writes in the main window; and the completion signal of a
scan begun later carries `aborted == true` only when the button is clicked again
after that scan-begin. -/
theorem C10_idle_abort_forwards_cancellation (c : MainController) (hidle : Idle c) :
    handleUserScanAbort c = (c, [Effect.rmScanAbort, Effect.scAbort]) ∧
    step c Event.scanAbort =
      ({ c with m_mainWindow := c.m_mainWindow.handleScanAbortButton },
        [Effect.rmScanAbort, Effect.scAbort]) ∧
    Idle (step c Event.scanAbort).1 ∧
    (∀ (between : List Event) (ruleset : Option RulesetView) (mid : List Event) (e : Event)
      (b : Bool),
      Effect.scanBegin ∈
        (step (run (step c Event.scanAbort).1 between).1 (Event.changeRuleset ruleset)).2 →
      (∀ x ∈ (run (step (run (step c Event.scanAbort).1 between).1
          (Event.changeRuleset ruleset)).1 mid).2, x.isScanBegin = false) →
      Effect.scanEnd b ∈ (step (run (step (run (step c Event.scanAbort).1 between).1
          (Event.changeRuleset ruleset)).1 mid).1 e).2 →
      (b = true ↔ ∃ x ∈ mid, x.isAbort = true)) := by
  refine ⟨rfl, rfl, hidle, ?_⟩
  intro between ruleset mid e b hbegin hmid hend
  exact aborted_flag_iff _ ruleset mid e b hbegin hmid hend

/-- Witness for C10: the idle state after start-up and target selection. -/
theorem C10_idle_abort_forwards_cancellation_witness :
    Idle readyState ∧
    handleUserScanAbort readyState = (readyState, [Effect.rmScanAbort, Effect.scAbort]) :=
  ⟨by decide, (C10_idle_abort_forwards_cancellation readyState (by decide)).1⟩

/-- Counterexample to C11: a compile session is open, a scan runs to scan-complete with
the statistics of `/a.bin` outstanding, and a rules-updated event arrives: the state
is not idle (`m_scanning == false`, `m_statsRemaining == 1`) and the session is
enabled. -/
theorem C11_counterexample_enabled_while_draining :
    (run (MainController.init [viewR1] false) sampleUpdateWhileDraining).1.m_scanning = false ∧
    (run (MainController.init [viewR1] false) sampleUpdateWhileDraining).1.m_statsRemaining = 1 ∧
    ¬ Idle (run (MainController.init [viewR1] false) sampleUpdateWhileDraining).1 ∧
    (run (MainController.init [viewR1] false) sampleUpdateWhileDraining).1.m_compileWindows =
      [CompileWindow.mk viewR1Compiled true true 2] ∧
    ¬ AllSessionsDisabled (run (MainController.init [viewR1] false) sampleUpdateWhileDraining).1 := by
  decide

/-- C11, as the code has it: along every list of events from the initial state, in
every state with `m_scanning == true` every registered compile session is disabled;
and an event enables a session, all of them being disabled before it, only if it is a
rules-updated event arriving while `m_scanning == false` or it emits the completion
signal, which leaves the controller idle. -/
theorem C11_sessions_disabled_while_scanning (rules : List RulesetView) (aborted0 : Bool)
    (evs : List Event)
    (hscan : (run (MainController.init rules aborted0) evs).1.m_scanning = true) :
    AllSessionsDisabled (run (MainController.init rules aborted0) evs).1 ∧
    (∀ (c : MainController) (e : Event),
      AllSessionsDisabled c → ¬ AllSessionsDisabled (step c e).1 →
        (e.isRulesUpdated = true ∧ c.m_scanning = false) ∨
        ((∃ x ∈ (step c e).2, x.isScanEnd = true) ∧ Idle (step c e).1)) := by
  constructor
  · apply run_keeps_disabled_while_scanning evs _ _ hscan
    intro h
    cases h
  · intro c e hall hnot
    rcases step_sessions c e with h | h | h | h
    · exact absurd h hnot
    · exfalso
      apply hnot
      intro w hw
      obtain ⟨w0, hw0, he⟩ := h w hw
      rw [he]
      exact hall w0 hw0
    · exact Or.inl h
    · obtain ⟨x, hx, hend⟩ := h
      exact Or.inr ⟨⟨x, hx, hend⟩, step_scanEnd_post c e x hx hend⟩

/-- Witness for C11: a compile session is open when the scan starts. -/
theorem C11_sessions_disabled_while_scanning_witness :
    (run (MainController.init [viewR1] false) sampleScanWithSession).1.m_scanning = true ∧
    (run (MainController.init [viewR1] false) sampleScanWithSession).1.m_compileWindows =
      [CompileWindow.mk viewR1Compiled true false 1] ∧
    AllSessionsDisabled (run (MainController.init [viewR1] false) sampleScanWithSession).1 :=
  ⟨by decide, by decide,
    (C11_sessions_disabled_while_scanning [viewR1] false sampleScanWithSession
      (by decide)).1⟩

end YaraGui
